import Mathlib

/-!
# Verification of the real-time direct-messaging core (StartupLink `MessagesPage`)

Shallow embedding of the messaging view found in the repository
(`MessagesPage`: the `chatId` memo, the `onSnapshot` subscription effect and
`sendMessage`), together with the `MessageDoc` record shape from
`startup-link/app/api/firebaseConfig.ts`.

The embedding models:
* JavaScript string comparison (`Array.prototype.sort` default comparator on
  two strings) as a lexicographic comparison of the character lists;
* `String.prototype.trim` as dropping whitespace characters from both ends;
* the React effect keyed on `chatId` as a transition that first runs the
  previous effect's cleanup (releasing the retained subscription handle) and
  then runs the new effect body (which opens a subscription only when the
  identifier is defined);
* `sendMessage` as a state transformer over the message store and the local
  input buffer, with an explicit success flag for the asynchronous `addDoc`
  append (an exception aborts the function before `setText("")` runs).
-/

namespace ArkAy

/-- Lexicographic comparison of character lists, by character code, modelling
the default JavaScript string comparison used by `Array.prototype.sort`:
a shorter list that is a proper prefix of the other compares smaller. -/
def charListLt : List Char → List Char → Bool
  | _, [] => false
  | [], _ :: _ => true
  | a :: as, b :: bs =>
      if a < b then true
      else if b < a then false
      else charListLt as bs

/-- JavaScript `a < b` on strings. -/
def jsLt (a b : String) : Bool := charListLt a.data b.data

/-- JavaScript `String.prototype.trim`: removes whitespace from both ends. -/
def jsTrim (s : String) : String :=
  ⟨((s.data.dropWhile Char.isWhitespace).reverse.dropWhile Char.isWhitespace).reverse⟩

/-- The fixed separator used by the `chatId` memo (`.join("__")`). -/
def SEP : String := "__"

/-- JavaScript `[a, b].sort()` for two strings: ascending, stable. -/
def sortPair (a b : String) : List String :=
  if jsLt b a then [b, a] else [a, b]

/-- The Identity Resolver: the `chatId` memo of `MessagesPage`.

Source: `if (!user || !peerId) return undefined;
const pair = [user.uid, peerId].sort().join("__"); return pair;`

The authenticated self identity is represented by `selfId`, with the empty
string standing for "absent" (the `!user` guard; the resolver contract takes
a non-empty identity for a signed-in participant). `!peerId` is the
JavaScript emptiness test on the peer string. -/
def resolve (selfId peerId : String) : Option String :=
  if selfId = "" ∨ peerId = "" then none
  else some (String.intercalate SEP (sortPair selfId peerId))

/-- The server-assigned creation marker: the client writes the
`serverTimestamp()` sentinel; the store replaces it on commit. -/
inductive CreatedAt where
  | serverAssigned
  deriving DecidableEq, Repr

/-- The record written by `sendMessage` / read back by the subscription
(`MessageDoc` of `firebaseConfig.ts`, plus the `createdAt` marker written
by `sendMessage`). `timestamp` is `Date.now()` milliseconds. -/
structure MessageDoc where
  chatId : String
  senderId : String
  receiverId : String
  message : String
  timestamp : Nat
  createdAt : CreatedAt
  deriving DecidableEq, Repr

/-- Composer-visible state: the `messages` collection of the store and the
local input buffer (`text` React state). -/
structure ComposerState where
  store : List MessageDoc
  text : String
  deriving DecidableEq, Repr

/-- The `sendMessage` handler of `MessagesPage`.

Source: `if (!user || !chatId || !text.trim()) return;
await addDoc(collection(db, "messages"), { chatId, senderId: user.uid,
receiverId: peerId, message: text.trim(), timestamp: Date.now(),
createdAt: serverTimestamp() }); setText("");`

`user` is the authenticated identity (`none` when signed out), `chatId` the
resolved conversation identifier, `now` models `Date.now()`, and `appendOk`
whether the asynchronous `addDoc` append succeeds; on failure the `await`
throws, so the store is unchanged and `setText("")` never runs. -/
def sendMessage (user : Option String) (chatId : Option String) (peerId : String)
    (now : Nat) (appendOk : Bool) (s : ComposerState) : ComposerState :=
  match user, chatId with
  | some uid, some cid =>
      if jsTrim s.text = "" then s
      else if appendOk then
        { store := s.store ++
            [{ chatId := cid, senderId := uid, receiverId := peerId,
               message := jsTrim s.text, timestamp := now,
               createdAt := .serverAssigned }],
          text := "" }
      else s
  | _, _ => s

/-- The conversation identifier as the component computes it: `chatId` is the
memo of `user` and `peerId`, so the `sendMessage` call always receives the
identifier resolved from the same `user.uid` and `peerId`. Signed-out
(`user = none`) maps to the empty self identity of `resolve`. -/
def componentChatId (user : Option String) (peerId : String) : Option String :=
  match user with
  | none => none
  | some uid => resolve uid peerId

/-- A `sendMessage` call as wired in the component: the `chatId` argument is
the memoised `componentChatId` of the same `user` and `peerId`. -/
def componentSend (user : Option String) (peerId : String) (now : Nat)
    (appendOk : Bool) (s : ComposerState) : ComposerState :=
  sendMessage user (componentChatId user peerId) peerId now appendOk s

/-! ## Live Subscription Manager

The subscription effect of `MessagesPage`:

`useEffect(() => { if (!chatId) return;
  const q = query(collection(db, "messages"), where("chatId", "==", chatId),
                  orderBy("timestamp", "asc"));
  const unsub = onSnapshot(q, (snap) => { ... });
  return () => unsub(); }, [chatId]);`

React runs the previous effect's cleanup (which invokes the retained `unsub`
handle) before running the new effect body whenever the dependency `chatId`
changes. We model a `chatId` change as a list of primitive store actions:
the release of the old subscription (when one was opened) followed by the
establishment of the new one (when the new identifier is defined). -/

/-- A primitive action against the store's subscription interface. -/
inductive SubAction where
  | open_ (c : String)
  | close (c : String)
  deriving DecidableEq, Repr

/-- Whether the action establishes a subscription (`onSnapshot`). -/
def SubAction.isOpen : SubAction → Bool
  | .open_ _ => true
  | .close _ => false

/-- Whether the action releases a subscription (`unsub()`). -/
def SubAction.isClose : SubAction → Bool
  | .open_ _ => false
  | .close _ => true

/-- The subscriptions that the effect keyed on a given identifier keeps
live while that identifier is current: one for a defined identifier
(the effect body opens it), none otherwise (`if (!chatId) return`). -/
def liveOf : Option String → List String
  | none => []
  | some c => [c]

/-- The actions emitted when the effect's dependency changes from `old` to
`new`: the previous effect's cleanup first (releasing its subscription, if it
opened one), then the new effect body (opening a subscription only when the
new identifier is defined). -/
def effectActions (old new : Option String) : List SubAction :=
  (match old with
   | none => []
   | some c => [SubAction.close c]) ++
  (match new with
   | none => []
   | some c => [SubAction.open_ c])

/-- Apply one primitive action to the multiset of live subscriptions. -/
def applyAction (live : List String) : SubAction → List String
  | .open_ c => live ++ [c]
  | .close c => live.erase c

/-- Apply a sequence of actions. -/
def applyActions (live : List String) (acts : List SubAction) : List String :=
  acts.foldl applyAction live

/-- Every set of live subscriptions passed through while a sequence of
actions is applied (including the initial and final ones). -/
def statesDuring (live : List String) : List SubAction → List (List String)
  | [] => [live]
  | a :: rest => live :: statesDuring (applyAction live a) rest

/-- All subscription states passed through while the component processes a
sequence of identifier changes, starting from `cur` with `live`
subscriptions. -/
def subTrace (cur : Option String) (live : List String) :
    List (Option String) → List (List String)
  | [] => [live]
  | u :: us =>
      statesDuring live (effectActions cur u) ++
        subTrace u (applyActions live (effectActions cur u)) us

/-- The quiescent state after a sequence of identifier changes: the current
identifier and the live subscriptions. -/
def runUpdates (cur : Option String) (live : List String) :
    List (Option String) → Option String × List String
  | [] => (cur, live)
  | u :: us => runUpdates u (applyActions live (effectActions cur u)) us

/-! ## Feed updates (the `onSnapshot` callback)

`const data = snap.docs.map((d) => ({ id: d.id, ...(d.data() as MessageDoc) }));
setMessages(data);` -/

/-- A document of a snapshot: store-assigned id plus the record data. -/
structure SnapDoc where
  id : String
  doc : MessageDoc
  deriving DecidableEq, Repr

/-- The rendered message item (`UIMessage = MessageDoc & { id: string }`). -/
structure UIMessage where
  id : String
  chatId : String
  senderId : String
  receiverId : String
  message : String
  timestamp : Nat
  createdAt : CreatedAt
  deriving DecidableEq, Repr

/-- Maps one snapshot document: `({ id: d.id, ...(d.data() as MessageDoc) })`. -/
def toUIMessage (d : SnapDoc) : UIMessage :=
  { id := d.id, chatId := d.doc.chatId, senderId := d.doc.senderId,
    receiverId := d.doc.receiverId, message := d.doc.message,
    timestamp := d.doc.timestamp, createdAt := d.doc.createdAt }

/-- The `onSnapshot` callback: replaces the rendered list wholesale with the
mapped snapshot; the previously rendered list is ignored entirely. -/
def onSnapshotUpdate (snap : List SnapDoc) (_rendered : List UIMessage) :
    List UIMessage :=
  snap.map toUIMessage

/-! ## The lexicographic order, spec side

`lexLt` is the standard strict lexicographic order on strings (Mathlib's
`List.Lex` over the character order); it is used to state, independently of
the executable comparison above, what "sorted lexicographically" means. -/

/-- Strict lexicographic order on strings. -/
def lexLt (a b : String) : Prop := List.Lex (· < ·) a.data b.data

/-- Reflexive lexicographic order on strings. -/
def lexLe (a b : String) : Prop := lexLt a b ∨ a = b

instance lexLt.dec (a b : String) : Decidable (lexLt a b) :=
  inferInstanceAs (Decidable (List.Lex _ _ _))

instance lexLe.dec (a b : String) : Decidable (lexLe a b) :=
  inferInstanceAs (Decidable (Or _ _))

/-- Modelled from the spec: "a deterministic string derived by sorting the
two participant identifiers lexicographically and joining them with a fixed
separator" — the separator being `"__"` per the scenario
`resolve("u1","u2") = "u1__u2"`. Stated with the mathematical lexicographic
order `lexLe`, to be compared with the code-side `resolve`. -/
def specChatId (a b : String) : String :=
  if lexLe a b then a ++ "__" ++ b else b ++ "__" ++ a

/-- The executable comparison agrees with the mathematical lexicographic
order. -/
theorem charListLt_iff_lex (as bs : List Char) :
    charListLt as bs = true ↔ List.Lex (· < ·) as bs := by
  induction as generalizing bs with
  | nil =>
      cases bs with
      | nil => simp [charListLt]
      | cons b bs => simpa [charListLt] using List.Lex.nil
  | cons a as ih =>
      cases bs with
      | nil => simp [charListLt]
      | cons b bs =>
          by_cases hab : a < b
          · simpa [charListLt, hab] using List.Lex.rel hab
          · by_cases hba : b < a
            · simp only [charListLt, if_neg hab, if_pos hba]
              constructor
              · intro h; exact absurd h (by simp)
              · intro h; exact absurd h (asymm (List.Lex.rel hba))
            · have hab' : a = b := le_antisymm (not_lt.mp hba) (not_lt.mp hab)
              subst hab'
              simp only [charListLt, if_neg hab]
              rw [List.Lex.cons_iff]
              exact ih bs

/-- On strings, the executable `jsLt` decides the mathematical `lexLt`. -/
theorem jsLt_iff_lexLt (a b : String) : jsLt a b = true ↔ lexLt a b :=
  charListLt_iff_lex a.data b.data

/-- If neither string compares below the other, they are equal. -/
theorem eq_of_jsLt_false {a b : String} (h1 : jsLt a b = false)
    (h2 : jsLt b a = false) : a = b := by
  rcases trichotomous_of (List.Lex ((· < ·) : Char → Char → Prop)) a.data b.data with
      h | h | h
  · exact absurd ((jsLt_iff_lexLt a b).mpr h) (by simp [h1])
  · exact String.ext h
  · exact absurd ((jsLt_iff_lexLt b a).mpr h) (by simp [h2])

/-- Asymmetry of the string comparison. -/
theorem jsLt_asymm {a b : String} (h : jsLt a b = true) : jsLt b a = false := by
  by_contra hb
  have hb' : jsLt b a = true := by
    cases h' : jsLt b a with
    | false => exact absurd h' hb
    | true => rfl
  have h1 : List.Lex (· < ·) a.data b.data := (jsLt_iff_lexLt a b).mp h
  have h2 : List.Lex (· < ·) b.data a.data := (jsLt_iff_lexLt b a).mp hb'
  exact asymm h1 h2

/-- The two-element JavaScript sort does not depend on the argument order. -/
theorem sortPair_comm (a b : String) : sortPair a b = sortPair b a := by
  unfold sortPair
  cases hba : jsLt b a with
  | true => simp [jsLt_asymm hba]
  | false =>
      cases hab : jsLt a b with
      | true => simp [jsLt_asymm hab, hba]
      | false => rw [eq_of_jsLt_false hab hba]

/-- On non-empty identities `resolve` agrees with the spec-side sorted-join
definition. -/
theorem resolve_eq_specChatId {a b : String} (ha : a ≠ "") (hb : b ≠ "") :
    resolve a b = some (specChatId a b) := by
  unfold resolve specChatId
  rw [if_neg (by simp [ha, hb])]
  congr 1
  unfold sortPair
  cases hba : jsLt b a with
  | true =>
      have hlt : List.Lex (· < ·) b.data a.data := (jsLt_iff_lexLt b a).mp hba
      have hn : ¬ lexLe a b := by
        rintro (h | rfl)
        · exact asymm (show List.Lex (· < ·) a.data b.data from h) hlt
        · exact asymm hlt hlt
      rw [if_neg hn]
      rfl
  | false =>
      have hle : lexLe a b := by
        cases hab : jsLt a b with
        | true => exact Or.inl ((jsLt_iff_lexLt a b).mp hab)
        | false => exact Or.inr (eq_of_jsLt_false hab hba)
      rw [if_pos hle]
      rfl

/-- C1: For every pair of participant identity strings A and B, the Identity
Resolver is symmetric: `resolve(A,B) == resolve(B,A)` — the conversation
identifier does not depend on the order of the two arguments. -/
theorem resolve_symmetric : ∀ a b : String, resolve a b = resolve b a := by
  intro a b
  by_cases ha : a = "" <;> by_cases hb : b = "" <;>
    simp [resolve, ha, hb, sortPair_comm a b]

/-- C2: For every non-empty self identity and non-empty peer identity,
`resolve` returns the two identity strings sorted lexicographically and
joined with the fixed separator `"__"`; in particular
`resolve "u1" "u2" = some "u1__u2"`. -/
theorem resolve_is_sorted_join :
    (∀ a b : String, a ≠ "" → b ≠ "" → resolve a b = some (specChatId a b)) ∧
      resolve "u1" "u2" = some "u1__u2" :=
  ⟨fun _ _ ha hb => resolve_eq_specChatId ha hb, by decide⟩

/-- Witness for C2 at a concrete pair of non-empty identities. -/
theorem resolve_is_sorted_join_witness :
    resolve "bob" "ana" = some (specChatId "bob" "ana") :=
  resolve_is_sorted_join.1 "bob" "ana" (by decide) (by decide)

/-- C3: `resolve` returns no conversation identifier whenever either the self
identity or the peer identity is absent/empty, and in that state the
subscription effect opens no subscription (every action it emits is a
release). -/
theorem resolve_empty_no_conversation :
    ∀ a b : String, (a = "" ∨ b = "") →
      resolve a b = none ∧
        ∀ old : Option String, ∀ act ∈ effectActions old (resolve a b),
          act.isOpen = false := by
  intro a b h
  have hr : resolve a b = none := by
    rcases h with h | h <;> simp [resolve, h]
  refine ⟨hr, ?_⟩
  intro old act hmem
  rw [hr] at hmem
  cases old with
  | none => simp [effectActions] at hmem
  | some c =>
      simp [effectActions] at hmem
      subst hmem
      rfl

/-- Witness for C3: an empty self identity yields no conversation, and the
effect keyed on that identifier emits no subscription-opening action. -/
theorem resolve_empty_no_conversation_witness :
    resolve "" "bob" = none ∧
      SubAction.isOpen (SubAction.close "c") = false :=
  ⟨(resolve_empty_no_conversation "" "bob" (Or.inl rfl)).1,
    (resolve_empty_no_conversation "" "bob" (Or.inl rfl)).2 (some "c")
      (SubAction.close "c") (by rw [(resolve_empty_no_conversation "" "bob" (Or.inl rfl)).1]; simp [effectActions])⟩

/-- C4: whenever a precondition of `sendMessage` fails — no authenticated
user, no resolved conversation identifier, or text empty after trimming —
the call is a no-op: the store and the input buffer are unchanged. -/
theorem sendMessage_noop_of_failed_precondition :
    ∀ (user chatId : Option String) (peerId : String) (now : Nat)
      (appendOk : Bool) (s : ComposerState),
      (user = none ∨ chatId = none ∨ jsTrim s.text = "") →
      sendMessage user chatId peerId now appendOk s = s := by
  intro user chatId peerId now appendOk s h
  cases user with
  | none => simp [sendMessage]
  | some uid =>
      cases chatId with
      | none => simp [sendMessage]
      | some cid =>
          rcases h with h | h | h
          · exact absurd h (by simp)
          · exact absurd h (by simp)
          · simp [sendMessage, h]

/-- Witness for C4: whitespace-only text (with user and identifier present)
leaves the state untouched. -/
theorem sendMessage_noop_of_failed_precondition_witness :
    sendMessage (some "u1") (some "u1__u2") "u2" 5 true ⟨[], "   "⟩ =
      ⟨[], "   "⟩ :=
  sendMessage_noop_of_failed_precondition (some "u1") (some "u1__u2") "u2" 5
    true ⟨[], "   "⟩ (Or.inr (Or.inr (by decide)))

/-- C5: when all preconditions hold and the append succeeds, `sendMessage`
appends exactly one record — conversation identifier the current one, sender
the self identity, receiver the peer identity, body the trimmed text, client
timestamp the current time — and then clears the input buffer. -/
theorem sendMessage_appends_record :
    ∀ (uid cid peerId : String) (now : Nat) (s : ComposerState),
      jsTrim s.text ≠ "" →
      sendMessage (some uid) (some cid) peerId now true s =
        { store := s.store ++
            [{ chatId := cid, senderId := uid, receiverId := peerId,
               message := jsTrim s.text, timestamp := now,
               createdAt := .serverAssigned }],
          text := "" } := by
  intro uid cid peerId now s h
  simp [sendMessage, h]

/-- Witness for C5: sending `" hello "` appends one trimmed record and clears
the buffer. -/
theorem sendMessage_appends_record_witness :
    sendMessage (some "u1") (some "u1__u2") "u2" 7 true ⟨[], " hello "⟩ =
      ⟨[⟨"u1__u2", "u1", "u2", "hello", 7, .serverAssigned⟩], ""⟩ := by
  rw [sendMessage_appends_record "u1" "u1__u2" "u2" 7 ⟨[], " hello "⟩ (by decide)]
  decide

/-- C6: if the store append fails, nothing is cleared: the state — in
particular the composed text — is exactly as before the call. -/
theorem sendMessage_failure_preserves_text :
    ∀ (user chatId : Option String) (peerId : String) (now : Nat)
      (s : ComposerState),
      sendMessage user chatId peerId now false s = s ∧
        (sendMessage user chatId peerId now false s).text = s.text := by
  intro user chatId peerId now s
  have h : sendMessage user chatId peerId now false s = s := by
    cases user <;> cases chatId <;> simp [sendMessage]
  exact ⟨h, by rw [h]⟩

/-- One identifier change takes the live subscriptions of the old identifier
to those of the new one. -/
theorem applyActions_effectActions (cur u : Option String) :
    applyActions (liveOf cur) (effectActions cur u) = liveOf u := by
  cases cur <;> cases u <;>
    simp [applyActions, effectActions, applyAction, liveOf]

/-- During a single identifier change, at most one subscription is ever
live. -/
theorem statesDuring_length_le (cur u : Option String) :
    ∀ l ∈ statesDuring (liveOf cur) (effectActions cur u), l.length ≤ 1 := by
  cases cur with
  | none =>
      cases u with
      | none =>
          intro l hl
          simp [statesDuring, effectActions, liveOf] at hl
          simp [hl]
      | some c' =>
          intro l hl
          simp [statesDuring, effectActions, applyAction, liveOf] at hl
          rcases hl with rfl | rfl <;> simp
  | some c =>
      cases u with
      | none =>
          intro l hl
          simp [statesDuring, effectActions, applyAction, liveOf] at hl
          rcases hl with rfl | rfl <;> simp
      | some c' =>
          intro l hl
          simp [statesDuring, effectActions, applyAction, liveOf] at hl
          rcases hl with rfl | rfl | rfl <;> simp

/-- Along any sequence of identifier changes started on the identifier's
live set, every intermediate state has at most one live subscription. -/
theorem subTrace_length_le :
    ∀ (us : List (Option String)) (cur : Option String),
      ∀ l ∈ subTrace cur (liveOf cur) us, l.length ≤ 1 := by
  intro us
  induction us with
  | nil =>
      intro cur l hl
      simp [subTrace] at hl
      subst hl
      cases cur <;> simp [liveOf]
  | cons u us ih =>
      intro cur l hl
      simp only [subTrace, List.mem_append] at hl
      rcases hl with hl | hl
      · exact statesDuring_length_le cur u l hl
      · rw [applyActions_effectActions] at hl
        exact ih u l hl

/-- At every quiescent point the live subscriptions are exactly those of the
current identifier. -/
theorem runUpdates_live :
    ∀ (us : List (Option String)) (cur : Option String),
      (runUpdates cur (liveOf cur) us).2 =
        liveOf (runUpdates cur (liveOf cur) us).1 := by
  intro us
  induction us with
  | nil => intro cur; rfl
  | cons u us ih =>
      intro cur
      simp only [runUpdates]
      rw [applyActions_effectActions]
      exact ih u

/-- C7: in every reachable state of the subscription manager at most one
subscription is live at any instant (including mid-transition); exactly one
is live at quiescence whenever a valid identifier exists; and within each
identifier change every release precedes every establishment. -/
theorem subscription_invariant :
    (∀ us : List (Option String), ∀ l ∈ subTrace none [] us, l.length ≤ 1) ∧
      (∀ us : List (Option String),
        (runUpdates none [] us).2 = liveOf (runUpdates none [] us).1) ∧
      (∀ (us : List (Option String)) (c : String),
        (runUpdates none [] us).1 = some c → (runUpdates none [] us).2 = [c]) ∧
      (∀ old new : Option String,
        List.Pairwise (fun a b => a.isClose = true ∧ b.isOpen = true)
          (effectActions old new)) := by
  refine ⟨?_, ?_, ?_, ?_⟩
  · intro us
    exact subTrace_length_le us none
  · intro us
    exact runUpdates_live us none
  · intro us c h
    have h2 := runUpdates_live us none
    simp only [liveOf] at h2
    rw [h] at h2
    exact h2
  · intro old new
    cases old <;> cases new <;>
      simp [effectActions, SubAction.isClose, SubAction.isOpen]

/-- Witness for C7: after the change sequence `[some "a"]` the trace state
`["a"]` has at most one subscription, and quiescence holds exactly one. -/
theorem subscription_invariant_witness :
    (["a"] : List String).length ≤ 1 ∧
      (runUpdates none [] [some "a"]).2 = ["a"] :=
  ⟨subscription_invariant.1 [some "a"] ["a"] (by decide),
    subscription_invariant.2.2.1 [some "a"] "a" (by decide)⟩

/-- C8: a feed update replaces the rendered list wholesale with the mapped
snapshot (timestamps kept in snapshot order, no re-sorting); hence if the
store delivers the snapshot ordered ascending by timestamp, the rendered
sequence is non-decreasing by timestamp. -/
theorem snapshot_replaces_and_preserves_order :
    ∀ (snap : List SnapDoc) (rendered : List UIMessage),
      (onSnapshotUpdate snap rendered).map (fun m => m.timestamp) =
          snap.map (fun d => d.doc.timestamp) ∧
        (List.Sorted (· ≤ ·) (snap.map (fun d => d.doc.timestamp)) →
          List.Sorted (· ≤ ·)
            ((onSnapshotUpdate snap rendered).map (fun m => m.timestamp))) := by
  intro snap rendered
  have h : (onSnapshotUpdate snap rendered).map (fun m => m.timestamp) =
      snap.map (fun d => d.doc.timestamp) := by
    simp [onSnapshotUpdate, List.map_map]
    exact fun a _ => rfl
  refine ⟨h, fun hs => ?_⟩
  rw [h]
  exact hs

/-- Witness for C8 on a two-document snapshot ordered by timestamp. -/
theorem snapshot_replaces_and_preserves_order_witness :
    List.Sorted (· ≤ ·)
      ((onSnapshotUpdate
          [⟨"m1", ⟨"c", "u1", "u2", "hi", 3, .serverAssigned⟩⟩,
           ⟨"m2", ⟨"c", "u2", "u1", "yo", 5, .serverAssigned⟩⟩] []).map
        (fun m => m.timestamp)) :=
  (snapshot_replaces_and_preserves_order
      [⟨"m1", ⟨"c", "u1", "u2", "hi", 3, .serverAssigned⟩⟩,
       ⟨"m2", ⟨"c", "u2", "u1", "yo", 5, .serverAssigned⟩⟩] []).2 (by decide)

/-- C9: every record the Composer creates satisfies
`resolve(senderId, receiverId) = some chatId` — the stored conversation
identifier is the resolver applied to the record's own sender and
receiver. -/
theorem componentSend_record_consistent :
    ∀ (user : Option String) (peerId : String) (now : Nat) (appendOk : Bool)
      (s : ComposerState),
      ∀ r ∈ (componentSend user peerId now appendOk s).store.drop
          s.store.length,
        resolve r.senderId r.receiverId = some r.chatId := by
  intro user peerId now appendOk s r hr
  cases user with
  | none =>
      simp [componentSend, componentChatId, sendMessage, List.drop_length] at hr
  | some uid =>
      cases h : resolve uid peerId with
      | none =>
          simp [componentSend, componentChatId, h, sendMessage,
            List.drop_length] at hr
      | some cid =>
          by_cases ht : jsTrim s.text = ""
          · simp [componentSend, componentChatId, h, sendMessage, ht,
              List.drop_length] at hr
          · cases appendOk with
            | false =>
                simp [componentSend, componentChatId, h, sendMessage, ht,
                  List.drop_length] at hr
            | true =>
                simp [componentSend, componentChatId, h, sendMessage, ht,
                  List.drop_left] at hr
                subst hr
                exact h

/-- Witness for C9: the record created by a concrete send has its identifier
equal to the resolver of its sender and receiver. -/
theorem componentSend_record_consistent_witness :
    resolve "u1" "u2" = some "u1__u2" :=
  componentSend_record_consistent (some "u1") "u2" 3 true ⟨[], "hi"⟩
    ⟨"u1__u2", "u1", "u2", "hi", 3, .serverAssigned⟩ (by decide)

/-- C10: the peer identity is not trimmed: for a whitespace-only peer `" "`
and a non-empty authenticated self identity, `resolve` returns a defined
identifier, the effect opens a subscription for it, and send appends a
record whose receiver is the untrimmed `" "` — while whitespace-only message
text is rejected. -/
theorem peer_not_trimmed :
    ∀ uid : String, uid ≠ "" →
      (∃ c, resolve uid " " = some c) ∧
        (∀ old : Option String,
          ∃ act ∈ effectActions old (resolve uid " "), act.isOpen = true) ∧
        (∀ (now : Nat) (s : ComposerState), jsTrim s.text ≠ "" →
          ∃ rec : MessageDoc, rec.receiverId = " " ∧
            (componentSend (some uid) " " now true s).store =
              s.store ++ [rec]) ∧
        (∀ (now : Nat) (appendOk : Bool) (s : ComposerState),
          jsTrim s.text = "" →
            componentSend (some uid) " " now appendOk s = s) := by
  intro uid hu
  have hc : resolve uid " " =
      some (String.intercalate SEP (sortPair uid " ")) := by
    simp [resolve, hu]
  refine ⟨⟨_, hc⟩, ?_, ?_, ?_⟩
  · intro old
    refine ⟨SubAction.open_ (String.intercalate SEP (sortPair uid " ")),
      ?_, rfl⟩
    rw [hc]
    cases old <;> simp [effectActions]
  · intro now s ht
    refine ⟨{ chatId := String.intercalate SEP (sortPair uid " "),
              senderId := uid, receiverId := " ", message := jsTrim s.text,
              timestamp := now, createdAt := .serverAssigned }, rfl, ?_⟩
    simp [componentSend, componentChatId, hc, sendMessage, ht]
  · intro now appendOk s ht
    simp [componentSend, componentChatId, hc, sendMessage, ht]

/-- Witness for C10: with self `"u1"` the whitespace peer `" "` yields a
defined conversation identifier. -/
theorem peer_not_trimmed_witness :
    ∃ c, resolve "u1" " " = some c :=
  (peer_not_trimmed "u1" (by decide)).1

end ArkAy
